import Mathlib

/-!
Verification of the rule-based message-analysis engine of the
neurotrack student-care application (source: `src/lib/ml.ts`).

Texts are modelled as `List Char` (a TS string, indexed by character).
Confidences are rationals, urgency scores and priorities integers.
Each Lean definition is a direct shallow embedding of the TS function
of the same name.
-/

namespace NeuroTrack

/-- Intent categories (the TS string union on `Intent.category`). -/
inductive Category
  | support
  | crisis
  | routine
  | medical
  | behavioral
  | academic
deriving DecidableEq, Repr

/-- The TS `KnowledgeItem.category` is a free-form string; intents carry the
enum.  `Category.str` is the string the TS union member denotes, used where
the source compares the two with `===`. -/
def Category.str : Category → String
  | .support => "support"
  | .crisis => "crisis"
  | .routine => "routine"
  | .medical => "medical"
  | .behavioral => "behavioral"
  | .academic => "academic"

/-- Entity type tags (the TS `Entity.type` union). -/
inductive EntityType
  | student_name
  | emotion
  | behavior
  | location
  | time
  | urgency
deriving DecidableEq, Repr

/-- `Intent` from `ml.ts`. -/
structure Intent where
  type : String
  confidence : ℚ
  category : Category
deriving DecidableEq, Repr

/-- `Entity` from `ml.ts`.  The source's `end` field is called `stop` here
because `end` is reserved in Lean; spans are half-open `[start, stop)`. -/
structure Entity where
  type : EntityType
  value : List Char
  confidence : ℚ
  start : Nat
  stop : Nat
deriving DecidableEq, Repr

/-- Sentiment classification result. -/
inductive Sentiment
  | positive
  | negative
  | neutral
deriving DecidableEq, Repr

/-- `AutismKnowledgeItem` from `ml.ts`. -/
structure AutismKnowledgeItem where
  id : String
  category : String
  content : List Char
  keywords : List (List Char)
  responses : List String
  priority : Int
deriving DecidableEq, Repr

/-- `MLAnalysis` from `ml.ts` (the `AnalysisResult` of the spec).
The two optional TS fields are `Option`s; an absent or `undefined`
field is `none`. -/
structure MLAnalysis where
  intents : List Intent
  entities : List Entity
  sentiment : Sentiment
  urgencyScore : Int
  suggestedResponse : Option String
  requiredActions : Option (List String)
deriving DecidableEq, Repr

/-! ### Lexical matching primitives

The TS source matches by regular expressions of the single shape
`\b(w1|w2|...)\b` (whole-word alternation) and by `String.includes`
(plain substring).  We embed both literally. -/

/-- JS regex `\w`: ASCII letter, digit or underscore. -/
def isWordChar (c : Char) : Bool := c.isAlphanum || c == '_'

/-- The character at index `i` is absent (out of range) or not a word
character — i.e. a `\b` word boundary can sit next to position `i`. -/
def nonWordAt (t : List Char) (i : Nat) : Bool :=
  !isWordChar (t.getD i ' ')

/-- The word `w` occurs verbatim at index `i` of `t`
(used for the regexes without the `i` flag, applied to lowercased text). -/
def strMatchAt (w t : List Char) (i : Nat) : Bool :=
  (t.drop i).take w.length == w

/-- The word `w` (given lowercased) occurs case-insensitively at index `i`
of `t` (the regexes carrying the `i` flag). -/
def ciMatchAt (w t : List Char) (i : Nat) : Bool :=
  ((t.drop i).take w.length).map Char.toLower == w

/-- `\b w \b` matches at index `i` of `t`, exact-case variant. -/
def wholeWordAt (w t : List Char) (i : Nat) : Bool :=
  strMatchAt w t i && (i == 0 || nonWordAt t (i - 1)) && nonWordAt t (i + w.length)

/-- `\b w \b` matches at index `i` of `t`, case-insensitive variant. -/
def wholeWordAtCI (w t : List Char) (i : Nat) : Bool :=
  ciMatchAt w t i && (i == 0 || nonWordAt t (i - 1)) && nonWordAt t (i + w.length)

/-- `/\b(w)\b/.test(t)`: some position of `t` carries a whole-word match. -/
def containsWholeWord (w t : List Char) : Bool :=
  (List.range (t.length + 1)).any (fun i => wholeWordAt w t i)

/-- `/\b(w1|w2|...)\b/.test(t)`: some alternative matches somewhere. -/
def testAnyWord (ws : List (List Char)) (t : List Char) : Bool :=
  ws.any (fun w => containsWholeWord w t)

/-- `t.includes(w)`: `w` is a (contiguous) substring of `t`. -/
def strContains (t w : List Char) : Bool :=
  (List.range (t.length + 1)).any (fun i => strMatchAt w t i)

/-! ### Intent recognition (`recognizeIntents`) -/

/-- Crisis/emergency trigger words of `recognizeIntents`. -/
def crisisWords : List (List Char) :=
  ["emergency", "crisis", "help", "urgent", "meltdown", "aggressive",
   "hurt", "danger"].map String.toList

/-- Behavioral trigger words. -/
def behavioralWords : List (List Char) :=
  ["behavior", "acting out", "stimming", "tantrum", "disruptive", "calm",
   "focus"].map String.toList

/-- Medical trigger words. -/
def medicalWords : List (List Char) :=
  ["medication", "sick", "tired", "pain", "headache", "stomach",
   "allergy"].map String.toList

/-- Academic trigger words. -/
def academicWords : List (List Char) :=
  ["learning", "homework", "assignment", "reading", "math", "progress",
   "goal"].map String.toList

/-- Support-request trigger words. -/
def supportWords : List (List Char) :=
  ["need help", "support", "assistance", "guidance", "advice",
   "what should"].map String.toList

/-- Routine trigger words. -/
def routineWords : List (List Char) :=
  ["schedule", "routine", "break", "lunch", "transition",
   "activity"].map String.toList

/-- The fixed intent each rule pushes. -/
def crisisIntent : Intent := ⟨"crisis_alert", 0.9, .crisis⟩

def behavioralIntent : Intent := ⟨"behavior_report", 0.8, .behavioral⟩

def medicalIntent : Intent := ⟨"medical_concern", 0.85, .medical⟩

def academicIntent : Intent := ⟨"academic_update", 0.7, .academic⟩

def supportIntent : Intent := ⟨"support_request", 0.75, .support⟩

def routineIntent : Intent := ⟨"routine_update", 0.6, .routine⟩

/-- `recognizeIntents(text)`: six independent whole-word rules in fixed
order; every rule that fires appends its intent.  `text` is the already
lowercased message. -/
def recognizeIntents (text : List Char) : List Intent :=
  (if testAnyWord crisisWords text then [crisisIntent] else []) ++
  (if testAnyWord behavioralWords text then [behavioralIntent] else []) ++
  (if testAnyWord medicalWords text then [medicalIntent] else []) ++
  (if testAnyWord academicWords text then [academicIntent] else []) ++
  (if testAnyWord supportWords text then [supportIntent] else []) ++
  (if testAnyWord routineWords text then [routineIntent] else [])

/-! ### Entity extraction (`extractEntities`)

Each of the three scans is a global case-insensitive regex
`/\b(w1|...|wn)\b/gi` run with `exec` in a loop: the engine repeatedly
finds the leftmost match at or after `lastIndex` and then resumes just
past it (matches do not overlap within a scan).  `scanAux` models the
loop: at position `i` it tries the alternatives in order, emits the
match and skips it, or moves one character right.  The fuel argument
only bounds the loop; `textLen + 1` steps always suffice. -/

/-- Emotion words (confidence 0.8). -/
def emotionWords : List (List Char) :=
  ["happy", "sad", "angry", "frustrated", "calm", "excited", "anxious",
   "overwhelmed"].map String.toList

/-- Urgency indicator words (confidence 0.9). -/
def urgencyWords : List (List Char) :=
  ["urgent", "immediate", "asap", "emergency", "now", "quickly"].map
    String.toList

/-- Time reference words (confidence 0.7). -/
def timeWords : List (List Char) :=
  ["morning", "afternoon", "lunch", "recess", "today", "tomorrow",
   "now"].map String.toList

/-- One step of the `regex.exec` loop (see above). -/
def scanAux (ty : EntityType) (conf : ℚ) (ws : List (List Char))
    (t : List Char) : Nat → Nat → List Entity
  | 0, _ => []
  | fuel + 1, i =>
    match ws.find? (fun w => wholeWordAtCI w t i) with
    | some w =>
        { type := ty, value := (t.drop i).take w.length, confidence := conf,
          start := i, stop := i + w.length } ::
          scanAux ty conf ws t fuel (i + w.length)
    | none => scanAux ty conf ws t fuel (i + 1)

/-- All matches of one global case-insensitive whole-word scan over `t`. -/
def scanFor (ty : EntityType) (conf : ℚ) (ws : List (List Char))
    (t : List Char) : List Entity :=
  scanAux ty conf ws t (t.length + 1) 0

/-- `extractEntities(text)`: emotion scan, then urgency scan, then time
scan, each over the raw (non-lowercased) text. -/
def extractEntities (text : List Char) : List Entity :=
  scanFor .emotion 0.8 emotionWords text ++
  scanFor .urgency 0.9 urgencyWords text ++
  scanFor .time 0.7 timeWords text

/-! ### Sentiment analysis (`analyzeSentiment`) -/

/-- The fixed positive lexicon. -/
def positiveWords : List (List Char) :=
  ["good", "great", "happy", "calm", "success", "progress", "better",
   "improvement"].map String.toList

/-- The fixed negative lexicon. -/
def negativeWords : List (List Char) :=
  ["bad", "terrible", "angry", "upset", "problem", "issue", "difficult",
   "struggle"].map String.toList

/-- `analyzeSentiment(text)`: counts the lexicon words the (lowercased)
text `includes` and votes. -/
def analyzeSentiment (text : List Char) : Sentiment :=
  let positiveCount := (positiveWords.filter (fun w => strContains text w)).length
  let negativeCount := (negativeWords.filter (fun w => strContains text w)).length
  if positiveCount > negativeCount then .positive
  else if negativeCount > positiveCount then .negative
  else .neutral

/-! ### Urgency scoring (`calculateUrgencyScore`) -/

/-- The emotion values that raise urgency. -/
def negativeEmotionValues : List (List Char) :=
  ["angry", "frustrated", "anxious", "overwhelmed"].map String.toList

/-- `calculateUrgencyScore(text, intents, entities)`. -/
def calculateUrgencyScore (_text : List Char) (intents : List Intent)
    (entities : List Entity) : Int :=
  let score : Int := 5
  let score := score + (if intents.any (fun i => i.category == .crisis) then 4 else 0)
  let score := score + (if intents.any (fun i => i.category == .medical) then 2 else 0)
  let score := score + (if intents.any (fun i => i.category == .behavioral) then 1 else 0)
  let urgencyEntities := entities.filter (fun e => e.type == .urgency)
  let score := score + (urgencyEntities.length : Int) * 2
  let negativeEmotions := entities.filter (fun e =>
    e.type == .emotion && negativeEmotionValues.contains (e.value.map Char.toLower))
  let score := score + (negativeEmotions.length : Int)
  min 10 (max 0 score)

/-! ### Required actions (`determineRequiredActions`) -/

/-- `determineRequiredActions(intents, entities, urgencyScore)`: five
independent rules, each appending its fixed tags. -/
def determineRequiredActions (intents : List Intent) (_entities : List Entity)
    (urgencyScore : Int) : List String :=
  (if urgencyScore ≥ 8 then ["immediate_response_required"] else []) ++
  (if intents.any (fun i => i.category == .crisis) then
    ["notify_crisis_team", "document_incident"] else []) ++
  (if intents.any (fun i => i.category == .medical) then
    ["notify_school_nurse", "contact_parent"] else []) ++
  (if intents.any (fun i => i.category == .behavioral) then
    ["log_behavior_incident", "review_intervention_plan"] else []) ++
  (if urgencyScore ≥ 6 then ["escalate_to_supervisor"] else [])

/-! ### Response retrieval (`getSuggestedResponse`) -/

/-- The filter of `getSuggestedResponse`: keep catalog items whose
category equals the intent's category, or one of whose keywords is a
case-insensitive substring of some entity value. -/
def relevantItems (intent : Intent) (entities : List Entity)
    (knowledgeBase : List AutismKnowledgeItem) : List AutismKnowledgeItem :=
  knowledgeBase.filter (fun item =>
    item.category == intent.category.str ||
    item.keywords.any (fun keyword =>
      entities.any (fun entity =>
        strContains (entity.value.map Char.toLower) (keyword.map Char.toLower))))

/-- Keep the earlier element `x` unless the later candidate is strictly
greater in priority. -/
def betterOf (x : AutismKnowledgeItem) :
    Option AutismKnowledgeItem → AutismKnowledgeItem
  | none => x
  | some y => if y.priority > x.priority then y else x

/-- Head of the stable descending sort by `priority`
(`.sort((a, b) => b.priority - a.priority)[0]`, JS `sort` being stable):
the earliest element of maximal priority. -/
def bestByPriority : List AutismKnowledgeItem → Option AutismKnowledgeItem
  | [] => none
  | x :: xs => some (betterOf x (bestByPriority xs))

/-- `bestMatch.responses[0] || null`: the first response template, with
a missing element and the empty string both collapsing to `null`. -/
def firstResponse (item : AutismKnowledgeItem) : Option String :=
  match item.responses with
  | [] => none
  | r :: _ => if r == "" then none else some r

/-- `getSuggestedResponse(intent, entities)` against a catalog snapshot
(the `context` argument of the source is accepted but never read). -/
def getSuggestedResponse (intent : Intent) (entities : List Entity)
    (knowledgeBase : List AutismKnowledgeItem) : Option String :=
  let relevantKnowledge := relevantItems intent entities knowledgeBase
  match bestByPriority relevantKnowledge with
  | none => none
  | some bestMatch => firstResponse bestMatch

/-! ### Catalog ingestion (`processAutismInformation` helpers) -/

/-- Stop words removed by `extractKeywords`. -/
def stopWords : List (List Char) :=
  ["this", "that", "with", "have", "will", "been", "from", "they", "them",
   "were", "said", "each", "which", "their", "time", "about"].map
    String.toList

/-- Split a character list into maximal non-empty runs of
non-whitespace characters (`split(/\s+/)`; the possible leading empty
fragment is irrelevant because every later filter requires length > 3). -/
def splitWs : List Char → List (List Char)
  | [] => []
  | c :: cs =>
    if c.isWhitespace then splitWs cs
    else
      match splitWs cs with
      | [] => [[c]]
      | w :: ws =>
        match cs with
        | [] => [[c]]
        | d :: _ => if d.isWhitespace then [c] :: w :: ws else (c :: w) :: ws

/-- `extractKeywords(content)`: lowercase, strip punctuation
(`replace(/[^\w\s]/g, '')`), split on whitespace, keep tokens longer
than 3 characters, drop stop words, deduplicate preserving first
occurrence (`[...new Set(...)]`). -/
def extractKeywords (content : List Char) : List (List Char) :=
  let cleaned := (content.map Char.toLower).filter
    (fun c => isWordChar c || c.isWhitespace)
  let words := (splitWs cleaned).filter (fun w => w.length > 3)
  let kept := words.filter (fun w => !stopWords.contains w)
  kept.foldl (fun acc w => if acc.contains w then acc else acc ++ [w]) []

/-- `generateResponses(content, category)`: fixed per-category template
table with a generic fallback pair. -/
def generateResponses (_content : List Char) (category : String) : List String :=
  if category == "crisis" then
    ["This appears to be an urgent situation requiring immediate attention.",
     "Please ensure safety protocols are followed and document the incident."]
  else if category == "medical" then
    ["Medical concerns should be addressed promptly with appropriate staff.",
     "Please contact the school nurse and notify parents if necessary."]
  else if category == "behavioral" then
    ["Behavioral observations are important for developing effective strategies.",
     "Consider documenting triggers and successful interventions."]
  else if category == "academic" then
    ["Academic progress tracking helps identify effective teaching strategies.",
     "Regular assessment helps ensure student needs are being met."]
  else if category == "support" then
    ["Support requests help ensure students receive appropriate assistance.",
     "Collaboration between team members improves student outcomes."]
  else if category == "routine" then
    ["Routine updates help maintain consistency for students who need structure.",
     "Clear schedules and transitions support student success."]
  else
    ["Thank you for this information. It will help improve student support.",
     "This feedback is valuable for ongoing care planning."]

/-- The category-priority table of `calculatePriority` (unknown
categories default to 5). -/
def categoryPriority (category : String) : Int :=
  if category == "crisis" then 10
  else if category == "medical" then 9
  else if category == "behavioral" then 7
  else if category == "academic" then 5
  else if category == "support" then 6
  else if category == "routine" then 4
  else 5

/-- Urgency markers of `calculatePriority`
(`/\b(urgent|emergency|immediate|asap)\b/i`). -/
def priorityUrgencyMarkers : List (List Char) :=
  ["urgent", "emergency", "immediate", "asap"].map String.toList

/-- Case-insensitive whole-word test, `/\b(w1|...)\b/i.test(t)`. -/
def testAnyWordCI (ws : List (List Char)) (t : List Char) : Bool :=
  ws.any (fun w => (List.range (t.length + 1)).any (fun i => wholeWordAtCI w t i))

/-- `calculatePriority(category, content)`: table value, plus 2 capped
at 10 when the content contains an urgency marker. -/
def calculatePriority (category : String) (content : List Char) : Int :=
  let priority := categoryPriority category
  if testAnyWordCI priorityUrgencyMarkers content then min 10 (priority + 2)
  else priority

/-- One raw item handed to `processAutismInformation`. -/
structure IngestItem where
  content : List Char
  category : String
  keywords : Option (List (List Char))
deriving Repr

/-- The `KnowledgeItem` that `processAutismInformation` builds from one
raw item (`id` abstracts the source's random UUID, which no later rule
reads). -/
def ingestItem (id : String) (d : IngestItem) : AutismKnowledgeItem :=
  { id := id
    category := d.category
    content := d.content
    keywords := d.keywords.getD (extractKeywords d.content)
    responses := generateResponses d.content d.category
    priority := calculatePriority d.category d.content }

/-! ### The orchestrator (`performAnalysis`, `analyzeMessage`) -/

/-- The per-call context argument of `analyzeMessage`; accepted but not
consulted by any rule. -/
structure AnalysisContext where
  studentId : Option String
  senderRole : Option String
  previousMessages : Option (List String)
deriving DecidableEq, Repr

/-- `performAnalysis(content, context)` against a catalog snapshot:
lowercase once, run recognition / extraction / sentiment, score
urgency, retrieve a response for the first intent if any, derive
actions, assemble the result (`suggestedResponse || undefined` maps an
empty string to an absent field). -/
def performAnalysis (content : List Char) (_context : AnalysisContext)
    (knowledgeBase : List AutismKnowledgeItem) : MLAnalysis :=
  let text := content.map Char.toLower
  let intents := recognizeIntents text
  let entities := extractEntities content
  let sentiment := analyzeSentiment text
  let urgencyScore := calculateUrgencyScore text intents entities
  let suggestedResponse :=
    match intents with
    | [] => none
    | intent :: _ => getSuggestedResponse intent entities knowledgeBase
  let requiredActions := determineRequiredActions intents entities urgencyScore
  { intents := intents
    entities := entities
    sentiment := sentiment
    urgencyScore := urgencyScore
    suggestedResponse :=
      match suggestedResponse with
      | some s => if s == "" then none else some s
      | none => none
    requiredActions := some requiredActions }

/-- The fixed fallback result of `analyzeMessage`'s catch branch:
`{ intents: [], entities: [], sentiment: 'neutral', urgencyScore: 5 }`
(the two optional fields absent). -/
def fallbackAnalysis : MLAnalysis :=
  { intents := []
    entities := []
    sentiment := .neutral
    urgencyScore := 5
    suggestedResponse := none
    requiredActions := none }

/-- `analyzeMessage`'s try/catch around the pipeline: the body either
produces an analysis or raises (`Except.error`); a raise is caught and
replaced by the fixed fallback, never re-thrown. -/
def analyzeMessage (pipelineOutcome : Except String MLAnalysis) : MLAnalysis :=
  match pipelineOutcome with
  | .ok analysis => analysis
  | .error _ => fallbackAnalysis

/-! ## Claims -/

/-- C1: if any exception is raised inside the
recognition/extraction/scoring pipeline, `analyzeMessage` catches it and
returns the fixed fallback result — empty intents, empty entities,
neutral sentiment, urgency 5, no suggested response, no required
actions — so the caller never observes a thrown exception. -/
theorem analyzeMessage_fallback_on_error (e : String) :
    analyzeMessage (Except.error e) = fallbackAnalysis ∧
    fallbackAnalysis.intents = [] ∧
    fallbackAnalysis.entities = [] ∧
    fallbackAnalysis.sentiment = Sentiment.neutral ∧
    fallbackAnalysis.urgencyScore = 5 ∧
    fallbackAnalysis.suggestedResponse = none ∧
    fallbackAnalysis.requiredActions = none :=
  ⟨rfl, rfl, rfl, rfl, rfl, rfl, rfl⟩

/-- C2: the urgency score is the clamp to `[0, 10]` of
`5 + 4·[crisis] + 2·[medical] + 1·[behavioral] + 2·#urgency-entities
+ 1·#negative-emotion-entities`, and in particular always lies in
`[0, 10]` whatever intents and entities are supplied. -/
theorem calculateUrgencyScore_spec (text : List Char) (intents : List Intent)
    (entities : List Entity) :
    calculateUrgencyScore text intents entities =
      min 10 (max 0 (5
        + (if intents.any (fun i => i.category == .crisis) then 4 else 0)
        + (if intents.any (fun i => i.category == .medical) then 2 else 0)
        + (if intents.any (fun i => i.category == .behavioral) then 1 else 0)
        + 2 * ((entities.filter (fun e => e.type == .urgency)).length : Int)
        + 1 * ((entities.filter (fun e => e.type == .emotion &&
            negativeEmotionValues.contains (e.value.map Char.toLower))).length : Int))) ∧
    0 ≤ calculateUrgencyScore text intents entities ∧
    calculateUrgencyScore text intents entities ≤ 10 := by
  simp only [calculateUrgencyScore]
  split_ifs <;> omega

/-- C5: the sentiment analyzer counts which positive-lexicon words and
which negative-lexicon words the text contains as substrings, and
returns positive exactly when the positive count is strictly larger,
negative exactly when the negative count is strictly larger, and
neutral exactly on ties (including 0–0). -/
theorem analyzeSentiment_spec (text : List Char) :
    (analyzeSentiment text = Sentiment.positive ↔
      (positiveWords.filter (fun w => strContains text w)).length >
        (negativeWords.filter (fun w => strContains text w)).length) ∧
    (analyzeSentiment text = Sentiment.negative ↔
      (negativeWords.filter (fun w => strContains text w)).length >
        (positiveWords.filter (fun w => strContains text w)).length) ∧
    (analyzeSentiment text = Sentiment.neutral ↔
      (positiveWords.filter (fun w => strContains text w)).length =
        (negativeWords.filter (fun w => strContains text w)).length) := by
  simp only [analyzeSentiment]
  split_ifs with h1 h2 <;>
    refine ⟨?_, ?_, ?_⟩ <;> simp <;> omega

/-- C7: the ingestion priority comes from the fixed category table
(crisis 10, medical 9, behavioral 7, support 6, academic 5, routine 4),
is raised by 2 capped at 10 when the content carries an urgency marker,
and therefore every ingested item's priority lies in `[0, 10]`. -/
theorem calculatePriority_spec (category : String) (content : List Char)
    (id : String) (d : IngestItem) :
    categoryPriority "crisis" = 10 ∧ categoryPriority "medical" = 9 ∧
    categoryPriority "behavioral" = 7 ∧ categoryPriority "support" = 6 ∧
    categoryPriority "academic" = 5 ∧ categoryPriority "routine" = 4 ∧
    calculatePriority category content =
      (if testAnyWordCI priorityUrgencyMarkers content then
        min 10 (categoryPriority category + 2)
      else categoryPriority category) ∧
    0 ≤ calculatePriority category content ∧
    calculatePriority category content ≤ 10 ∧
    (ingestItem id d).priority = calculatePriority d.category d.content ∧
    0 ≤ (ingestItem id d).priority ∧ (ingestItem id d).priority ≤ 10 := by
  have hbounds : ∀ c : String, 4 ≤ categoryPriority c ∧ categoryPriority c ≤ 10 := by
    intro c
    simp only [categoryPriority]
    split_ifs <;> omega
  have hcalc : ∀ (c : String) (t : List Char),
      0 ≤ calculatePriority c t ∧ calculatePriority c t ≤ 10 := by
    intro c t
    have h := hbounds c
    simp only [calculatePriority]
    split_ifs <;> omega
  refine ⟨rfl, rfl, rfl, rfl, rfl, rfl, rfl, (hcalc _ _).1, (hcalc _ _).2,
    rfl, (hcalc _ _).1, (hcalc _ _).2⟩

/-- C8: the analysis pipeline is a deterministic function of the text
and the catalog snapshot — two invocations with the same text, same
context and unchanged catalog yield identical results (and the context
fields are not consulted at all). -/
theorem performAnalysis_deterministic (content : List Char)
    (context : AnalysisContext) (knowledgeBase : List AutismKnowledgeItem) :
    performAnalysis content context knowledgeBase =
      performAnalysis content context knowledgeBase ∧
    ∀ context2 : AnalysisContext,
      performAnalysis content context knowledgeBase =
        performAnalysis content context2 knowledgeBase :=
  ⟨rfl, fun _ => rfl⟩

/-- C9: the required-actions list never contains a duplicate tag: the
five rules are evaluated once each, contribute pairwise disjoint tag
sets, and no rule pushes the same tag twice. -/
theorem determineRequiredActions_nodup (intents : List Intent)
    (entities : List Entity) (urgencyScore : Int) :
    (determineRequiredActions intents entities urgencyScore).Nodup := by
  simp only [determineRequiredActions]
  split_ifs <;> decide

/-- A rule's singleton contribution is a sublist of the singleton. -/
theorem if_singleton_sublist (b : Bool) (x : Intent) :
    List.Sublist (if b then [x] else []) [x] := by
  cases b <;> simp

/-- C3: a lowercased text containing any crisis trigger as a whole word
yields an intent of category crisis with confidence exactly 0.90; the
six rules fire independently (each rule that matches contributes its
intent even when others also match), and the output preserves the fixed
rule order crisis, behavioral, medical, academic, support, routine. -/
theorem recognizeIntents_crisis (text w : List Char)
    (hw : w ∈ crisisWords) (hmatch : containsWholeWord w text = true) :
    (∃ it ∈ recognizeIntents text,
      it.category = Category.crisis ∧ it.confidence = 0.9) ∧
    (testAnyWord behavioralWords text = true →
      behavioralIntent ∈ recognizeIntents text) ∧
    (testAnyWord medicalWords text = true →
      medicalIntent ∈ recognizeIntents text) ∧
    (testAnyWord academicWords text = true →
      academicIntent ∈ recognizeIntents text) ∧
    (testAnyWord supportWords text = true →
      supportIntent ∈ recognizeIntents text) ∧
    (testAnyWord routineWords text = true →
      routineIntent ∈ recognizeIntents text) ∧
    List.Sublist (recognizeIntents text)
      [crisisIntent, behavioralIntent, medicalIntent, academicIntent,
       supportIntent, routineIntent] := by
  have hc : testAnyWord crisisWords text = true :=
    List.any_eq_true.mpr ⟨w, hw, hmatch⟩
  refine ⟨⟨crisisIntent, ?_, rfl, rfl⟩, ?_, ?_, ?_, ?_, ?_, ?_⟩
  · simp [recognizeIntents, List.mem_append, hc]
  · intro h; simp [recognizeIntents, List.mem_append, h]
  · intro h; simp [recognizeIntents, List.mem_append, h]
  · intro h; simp [recognizeIntents, List.mem_append, h]
  · intro h; simp [recognizeIntents, List.mem_append, h]
  · intro h; simp [recognizeIntents, List.mem_append, h]
  · show List.Sublist (recognizeIntents text)
      ([crisisIntent] ++ ([behavioralIntent] ++ ([medicalIntent] ++
        ([academicIntent] ++ ([supportIntent] ++ [routineIntent])))))
    unfold recognizeIntents
    simp only [List.append_assoc]
    exact (if_singleton_sublist _ _).append
      ((if_singleton_sublist _ _).append
        ((if_singleton_sublist _ _).append
          ((if_singleton_sublist _ _).append
            ((if_singleton_sublist _ _).append (if_singleton_sublist _ _)))))

/-- C3 witness: "emergency meltdown during lunch" triggers the crisis
rule (and, independently, the routine rule — two intents at once). -/
theorem recognizeIntents_crisis_witness :
    ("emergency".toList ∈ crisisWords ∧
      containsWholeWord "emergency".toList
        "emergency meltdown during lunch".toList = true) ∧
    ((∃ it ∈ recognizeIntents "emergency meltdown during lunch".toList,
      it.category = Category.crisis ∧ it.confidence = 0.9) ∧
    (testAnyWord behavioralWords "emergency meltdown during lunch".toList = true →
      behavioralIntent ∈ recognizeIntents "emergency meltdown during lunch".toList) ∧
    (testAnyWord medicalWords "emergency meltdown during lunch".toList = true →
      medicalIntent ∈ recognizeIntents "emergency meltdown during lunch".toList) ∧
    (testAnyWord academicWords "emergency meltdown during lunch".toList = true →
      academicIntent ∈ recognizeIntents "emergency meltdown during lunch".toList) ∧
    (testAnyWord supportWords "emergency meltdown during lunch".toList = true →
      supportIntent ∈ recognizeIntents "emergency meltdown during lunch".toList) ∧
    (testAnyWord routineWords "emergency meltdown during lunch".toList = true →
      routineIntent ∈ recognizeIntents "emergency meltdown during lunch".toList) ∧
    List.Sublist (recognizeIntents "emergency meltdown during lunch".toList)
      [crisisIntent, behavioralIntent, medicalIntent, academicIntent,
       supportIntent, routineIntent]) :=
  ⟨⟨by decide, by decide⟩,
    recognizeIntents_crisis "emergency meltdown during lunch".toList
      "emergency".toList (by decide) (by decide)⟩

/-- `bestByPriority` returns `none` exactly on the empty list. -/
theorem bestByPriority_eq_none_iff (l : List AutismKnowledgeItem) :
    bestByPriority l = none ↔ l = [] := by
  cases l <;> simp [bestByPriority]

/-- `bestByPriority` returns the earliest element of maximal priority:
it belongs to the list, nothing in the list has higher priority, and
everything strictly before it has strictly lower priority. -/
theorem bestByPriority_first_max (l : List AutismKnowledgeItem)
    (b : AutismKnowledgeItem) (h : bestByPriority l = some b) :
    ∃ l1 l2, l = l1 ++ b :: l2 ∧
      (∀ y ∈ l, y.priority ≤ b.priority) ∧
      (∀ y ∈ l1, y.priority < b.priority) := by
  induction l generalizing b with
  | nil => simp [bestByPriority] at h
  | cons x xs ih =>
    rw [bestByPriority] at h
    cases hxs : bestByPriority xs with
    | none =>
      rw [hxs] at h
      simp only [betterOf] at h
      have hx : b = x := by
        injection h with h'
        exact h'.symm
      subst hx
      have hnil : xs = [] := (bestByPriority_eq_none_iff xs).mp hxs
      subst hnil
      exact ⟨[], [], rfl, by simp, by simp⟩
    | some y =>
      rw [hxs] at h
      simp only [betterOf] at h
      obtain ⟨l1, l2, heq, hle, hlt⟩ := ih y hxs
      by_cases hp : y.priority > x.priority
      · rw [if_pos hp] at h
        have hb : b = y := by
          injection h with h'
          exact h'.symm
        subst hb
        refine ⟨x :: l1, l2, by simp [heq], ?_, ?_⟩
        · intro z hz
          rcases List.mem_cons.mp hz with hz | hz
          · subst hz; omega
          · exact hle z hz
        · intro z hz
          rcases List.mem_cons.mp hz with hz | hz
          · subst hz; omega
          · exact hlt z hz
      · rw [if_neg hp] at h
        have hb : b = x := by
          injection h with h'
          exact h'.symm
        subst hb
        refine ⟨[], xs, rfl, ?_, by simp⟩
        intro z hz
        rcases List.mem_cons.mp hz with hz | hz
        · subst hz; omega
        · have := hle z hz
          omega

/-- A catalog whose only (matching) item carries no response templates. -/
def kbNoResponses : List AutismKnowledgeItem :=
  [{ id := "k-crisis", category := "crisis", content := [],
     keywords := [], responses := [], priority := 10 }]

/-- C4 counterexample: with a crisis intent, no entities and the
one-item catalog `kbNoResponses`, the filtered set is non-empty and yet
`getSuggestedResponse` returns null — the function does not return null
"exactly when the filtered set is empty". -/
theorem getSuggestedResponse_null_despite_match :
    relevantItems crisisIntent [] kbNoResponses ≠ [] ∧
    getSuggestedResponse crisisIntent [] kbNoResponses = none := by
  constructor
  · decide
  · decide

/-- C4 (amended): `getSuggestedResponse` filters the catalog by
category equality or keyword-in-entity-value substring match; it
returns null when the filtered set is empty, and otherwise hands the
earliest highest-priority filtered item (descending stable sort, ties
by insertion order) to `firstResponse`, which yields its first response
template — or null when the responses list is empty or its first
template is the empty string. -/
theorem getSuggestedResponse_spec (intent : Intent) (entities : List Entity)
    (kb : List AutismKnowledgeItem) :
    (relevantItems intent entities kb = [] →
      getSuggestedResponse intent entities kb = none) ∧
    (∀ b, bestByPriority (relevantItems intent entities kb) = some b →
      (∃ l1 l2, relevantItems intent entities kb = l1 ++ b :: l2 ∧
        (∀ y ∈ relevantItems intent entities kb, y.priority ≤ b.priority) ∧
        (∀ y ∈ l1, y.priority < b.priority)) ∧
      getSuggestedResponse intent entities kb = firstResponse b) := by
  constructor
  · intro h
    have hnone : bestByPriority (relevantItems intent entities kb) = none :=
      (bestByPriority_eq_none_iff _).mpr h
    simp only [getSuggestedResponse, hnone]
  · intro b hb
    refine ⟨bestByPriority_first_max _ _ hb, ?_⟩
    simp only [getSuggestedResponse, hb]

/-- A two-item catalog exercising the priority selection. -/
def kbTwoItems : List AutismKnowledgeItem :=
  [{ id := "k-acad", category := "academic", content := [],
     keywords := [], responses := ["Try smaller steps."], priority := 6 },
   { id := "k-cri", category := "crisis", content := [],
     keywords := [], responses := ["Ensure safety first."], priority := 10 }]

/-- The crisis item of `kbTwoItems`. -/
def kbTwoItemsTop : AutismKnowledgeItem :=
  { id := "k-cri", category := "crisis", content := [],
    keywords := [], responses := ["Ensure safety first."], priority := 10 }

/-- C4 witness: on `kbTwoItems` with a crisis intent the filtered set
is the crisis item alone, and the suggested response is its first
template. -/
theorem getSuggestedResponse_spec_witness :
    bestByPriority (relevantItems crisisIntent [] kbTwoItems) =
      some kbTwoItemsTop ∧
    getSuggestedResponse crisisIntent [] kbTwoItems =
      firstResponse kbTwoItemsTop :=
  ⟨by decide,
    ((getSuggestedResponse_spec crisisIntent [] kbTwoItems).2
      kbTwoItemsTop (by decide)).2⟩

/-- A one-item catalog whose matching item has no responses
(for the C10 instance). -/
def kbBlankTop : List AutismKnowledgeItem :=
  [{ id := "k-blank", category := "crisis", content := [],
     keywords := [], responses := [], priority := 9 }]

/-- The single item of `kbBlankTop`. -/
def kbBlankTopItem : AutismKnowledgeItem :=
  { id := "k-blank", category := "crisis", content := [],
    keywords := [], responses := [], priority := 9 }

/-- C10: whenever the highest-priority matching item has an empty
responses list or an empty first response template, the filtered set is
non-empty and `getSuggestedResponse` still returns null. -/
theorem getSuggestedResponse_null_on_blank_best (intent : Intent)
    (entities : List Entity) (kb : List AutismKnowledgeItem)
    (b : AutismKnowledgeItem)
    (hb : bestByPriority (relevantItems intent entities kb) = some b)
    (hr : b.responses = [] ∨ b.responses.head? = some "") :
    relevantItems intent entities kb ≠ [] ∧
    getSuggestedResponse intent entities kb = none := by
  constructor
  · intro h
    rw [(bestByPriority_eq_none_iff _).mpr h] at hb
    exact Option.noConfusion hb
  · have hfr : firstResponse b = none := by
      rcases hr with h | h
      · simp [firstResponse, h]
      · cases hresp : b.responses with
        | nil =>
          rw [hresp] at h
          exact absurd h (by simp)
        | cons r rs =>
          rw [hresp] at h
          have hr0 : r = "" := by
            simpa using h
          subst hr0
          simp [firstResponse, hresp]
    simp only [getSuggestedResponse, hb, hfr]

/-- C10 witness: the concrete catalog `kbBlankTop` matches a crisis
intent, the filtered set is non-empty, and the result is null. -/
theorem getSuggestedResponse_null_on_blank_best_witness :
    (bestByPriority (relevantItems crisisIntent [] kbBlankTop) =
        some kbBlankTopItem ∧
      (kbBlankTopItem.responses = [] ∨
        kbBlankTopItem.responses.head? = some "")) ∧
    (relevantItems crisisIntent [] kbBlankTop ≠ [] ∧
      getSuggestedResponse crisisIntent [] kbBlankTop = none) :=
  ⟨⟨by decide, Or.inl (by decide)⟩,
    getSuggestedResponse_null_on_blank_best crisisIntent [] kbBlankTop
      kbBlankTopItem (by decide) (Or.inl (by decide))⟩

/-- A successful case-insensitive whole-word match determines the
matched slice and keeps the span inside the text. -/
theorem wholeWordAtCI_bounds {w t : List Char} {i : Nat}
    (hne : w ≠ []) (h : wholeWordAtCI w t i = true) :
    ((t.drop i).take w.length).map Char.toLower = w ∧
      i + w.length ≤ t.length ∧ 0 < w.length := by
  have h1 : ciMatchAt w t i = true := by
    simp only [wholeWordAtCI, Bool.and_eq_true] at h
    exact h.1.1
  have hmap : ((t.drop i).take w.length).map Char.toLower = w := by
    simpa [ciMatchAt] using h1
  have hlen := congrArg List.length hmap
  simp only [List.length_map, List.length_take, List.length_drop] at hlen
  have hpos : 0 < w.length := List.length_pos.mpr hne
  exact ⟨hmap, by omega, hpos⟩

/-- Every entity emitted by the scan loop has a valid half-open span
into `t` whose slice is exactly the entity's value. -/
theorem scanAux_mem_spec (ty : EntityType) (conf : ℚ)
    (ws : List (List Char)) (t : List Char) (hws : ∀ w ∈ ws, w ≠ []) :
    ∀ (fuel i : Nat) (e : Entity), e ∈ scanAux ty conf ws t fuel i →
      e.start < e.stop ∧ e.stop ≤ t.length ∧
        (t.drop e.start).take (e.stop - e.start) = e.value := by
  intro fuel
  induction fuel with
  | zero =>
    intro i e h
    simp [scanAux] at h
  | succ n ih =>
    intro i e h
    rw [scanAux] at h
    cases hfind : ws.find? (fun w => wholeWordAtCI w t i) with
    | none =>
      rw [hfind] at h
      exact ih _ _ h
    | some w =>
      rw [hfind] at h
      rcases List.mem_cons.mp h with he | he
      · have hmatch : wholeWordAtCI w t i = true := by
          have := List.find?_some hfind
          simpa using this
        have hw : w ∈ ws := List.mem_of_find?_eq_some hfind
        obtain ⟨hmap, hle, hpos⟩ := wholeWordAtCI_bounds (hws w hw) hmatch
        subst he
        refine ⟨by simpa using hpos, by simpa using hle, ?_⟩
        simp only []
        have hsub : i + w.length - i = w.length := by omega
        rw [hsub]
      · exact ih _ _ he

/-- C6: every entity produced by `extractEntities` has a half-open span
`0 ≤ start < stop ≤ len(text)`, and the text slice `[start, stop)`
equals the entity's value up to case. -/
theorem extractEntities_span_valid (text : List Char) (e : Entity)
    (he : e ∈ extractEntities text) :
    0 ≤ e.start ∧ e.start < e.stop ∧ e.stop ≤ text.length ∧
      ((text.drop e.start).take (e.stop - e.start)).map Char.toLower =
        e.value.map Char.toLower := by
  have hmain : e.start < e.stop ∧ e.stop ≤ text.length ∧
      (text.drop e.start).take (e.stop - e.start) = e.value := by
    unfold extractEntities at he
    rcases List.mem_append.mp he with h | h
    · rcases List.mem_append.mp h with h2 | h2
      · exact scanAux_mem_spec _ _ _ _ (by decide) _ _ _ h2
      · exact scanAux_mem_spec _ _ _ _ (by decide) _ _ _ h2
    · exact scanAux_mem_spec _ _ _ _ (by decide) _ _ _ h
  exact ⟨Nat.zero_le _, hmain.1, hmain.2.1, by rw [hmain.2.2]⟩

/-- C6 witness: the first urgency entity of "Help NOW please" is
"NOW" at span `[5, 8)`, and the invariant holds for it. -/
theorem extractEntities_span_valid_witness :
    (⟨.urgency, "NOW".toList, 0.9, 5, 8⟩ : Entity) ∈
      extractEntities "Help NOW please".toList ∧
    (0 ≤ (5 : Nat) ∧ 5 < 8 ∧ 8 ≤ "Help NOW please".toList.length ∧
      (("Help NOW please".toList.drop 5).take (8 - 5)).map Char.toLower =
        "NOW".toList.map Char.toLower) := by
  have hlist : extractEntities "Help NOW please".toList =
      [⟨.urgency, "NOW".toList, 0.9, 5, 8⟩,
       ⟨.time, "NOW".toList, 0.7, 5, 8⟩] := rfl
  have hmem : (⟨.urgency, "NOW".toList, 0.9, 5, 8⟩ : Entity) ∈
      extractEntities "Help NOW please".toList := by
    rw [hlist]
    exact List.mem_cons_self _ _
  exact ⟨hmem,
    extractEntities_span_valid "Help NOW please".toList
      ⟨.urgency, "NOW".toList, 0.9, 5, 8⟩ hmem⟩

end NeuroTrack
